import Mathlib

/-!
Shallow embedding of `src/tagfs/tagfs_inode.c` (the tagfs in-memory
filesystem module): node allocation (`tagfs_get_inode`), directory-tree
mutations (`tagfs_mknod`, `tagfs_mkdir`, `tagfs_create`, `tagfs_symlink`),
mount-option parsing (`tagfs_parse_param`) and redisplay
(`tagfs_show_options`), volume setup (`tagfs_fill_super`) and teardown
(`tagfs_kill_sb`, `tagfs_free_fc`).

External kernel collaborators that the module calls but that are not part
of the repository (VFS lookup, libfs helpers, generic option parsing) are
modelled from the spec where a claim depends on them; each such definition
carries a doc comment saying so.
-/

namespace Tagfs

/-! Numeric constants from the kernel headers used by the source file. -/

def S_IFMT : Nat := 0o170000

def S_IFREG : Nat := 0o100000

def S_IFDIR : Nat := 0o40000

def S_IFLNK : Nat := 0o120000

def S_IRWXUGO : Nat := 0o777

def S_IALLUGO : Nat := 0o7777

/-- Source line 49: `#define TAGFS_DEFAULT_MODE 0755`. -/
def TAGFS_DEFAULT_MODE : Nat := 0o755

def ENOSPC : Int := 28

def ENOMEM : Int := 12

def EEXIST : Int := 17

def ENOENT : Int := 2

def EINVAL : Int := 22

def ENOTEMPTY : Int := 39

def ENOPARAM : Int := 519

/-- Which per-kind operation table the switch in `tagfs_get_inode` installs
(`i_op`/`i_fop` in the C structure), as a tagged variant. -/
inductive IOpsKind
  | special
  | file
  | dir
  | symlinkPage
  deriving DecidableEq, Repr

/-- One filesystem node (`struct inode`), restricted to the fields the
source file reads or writes. -/
structure Inode where
  ino : Nat
  mode : Nat
  uid : Nat
  gid : Nat
  nlink : Nat
  atime : Nat
  mtime : Nat
  ctime : Nat
  dev : Nat
  i_op : IOpsKind
  deriving DecidableEq, Repr

/-- The credentials of the creating context (`current_fsuid`/`current_fsgid`). -/
structure Ctx where
  uid : Nat
  gid : Nat
  deriving DecidableEq, Repr

/-- Modelled from the spec: `inode_init_owner` (generic VFS, not in src/) —
the new node inherits ownership from the creating context and receives the
requested mode. -/
def inode_init_owner (ctx : Ctx) (inode : Inode) (mode : Nat) : Inode :=
  { inode with uid := ctx.uid, gid := ctx.gid, mode := mode }

/-- Modelled from the spec: `init_special_inode` (generic VFS, not in src/) —
records the mode and the device descriptor on a special node. -/
def init_special_inode (inode : Inode) (mode dev : Nat) : Inode :=
  { inode with mode := mode, dev := dev, i_op := .special }

def inc_nlink (i : Inode) : Inode := { i with nlink := i.nlink + 1 }

def drop_nlink (i : Inode) : Inode := { i with nlink := i.nlink - 1 }

/-- Embedding of `tagfs_get_inode` (source lines 54-88).  `allocOk` is the
outcome of `new_inode` (the host allocator), `ino` the value `get_next_ino`
returns, `now` the value `current_time` returns.  A fresh inode starts with
link count 1; the `S_IFDIR` arm bumps it to 2 (`inc_nlink`, the "." entry);
the timestamps are set to `now`; the switch installs the per-kind
operation table. -/
def tagfs_get_inode (allocOk : Bool) (ino now : Nat) (ctx : Ctx)
    (mode dev : Nat) : Option Inode :=
  if allocOk then
    let base : Inode :=
      { ino := ino, mode := 0, uid := 0, gid := 0, nlink := 1,
        atime := 0, mtime := 0, ctime := 0, dev := 0, i_op := .file }
    let owned := inode_init_owner ctx base mode
    let timed := { owned with atime := now, mtime := now, ctime := now }
    some (
      if mode &&& S_IFMT = S_IFREG then
        { timed with i_op := .file }
      else if mode &&& S_IFMT = S_IFDIR then
        { timed with i_op := .dir, nlink := timed.nlink + 1 }
      else if mode &&& S_IFMT = S_IFLNK then
        { timed with i_op := .symlinkPage }
      else
        init_special_inode timed mode dev)
  else none

/-- One directory: its own inode plus its (name, child-inode) entries. -/
structure Dir where
  inode : Inode
  entries : List (String × Inode)
  deriving DecidableEq, Repr

/-- Name lookup inside one directory (the dcache view of its entries). -/
def lookupName (d : Dir) (name : String) : Option Inode :=
  (d.entries.find? (fun e => e.1 == name)).map (fun e => e.2)

/-- Binding a dentry to an inode (`d_instantiate`): the (name, node) entry
becomes part of the parent directory. -/
def d_instantiate (d : Dir) (name : String) (inode : Inode) : Dir :=
  { d with entries := d.entries ++ [(name, inode)] }

/-- Outcome of a creation operation: the returned error, the parent
directory afterwards, and the node handed back (if any). -/
structure MkResult where
  err : Int
  dir : Dir
  node : Option Inode
  deriving DecidableEq, Repr

/-- Embedding of `tagfs_mknod` (source lines 94-108): allocate an inode;
on success instantiate the dentry and touch the parent's mtime/ctime;
otherwise return -ENOSPC with nothing changed. -/
def tagfs_mknod (allocOk : Bool) (ino now : Nat) (ctx : Ctx) (d : Dir)
    (name : String) (mode dev : Nat) : MkResult :=
  match tagfs_get_inode allocOk ino now ctx mode dev with
  | some inode =>
      { err := 0,
        dir := { d_instantiate d name inode with
                 inode := { d.inode with mtime := now, ctime := now } },
        node := some inode }
  | none => { err := -ENOSPC, dir := d, node := none }

/-- Embedding of `tagfs_mkdir` (source lines 110-117): `tagfs_mknod` with
`mode | S_IFDIR`; on success `inc_nlink(dir)` on the parent. -/
def tagfs_mkdir (allocOk : Bool) (ino now : Nat) (ctx : Ctx) (d : Dir)
    (name : String) (mode : Nat) : MkResult :=
  let r := tagfs_mknod allocOk ino now ctx d name (mode ||| S_IFDIR) 0
  if r.err = 0 then { r with dir := { r.dir with inode := inc_nlink r.dir.inode } }
  else r

/-- Embedding of `tagfs_create` (source lines 119-123): `tagfs_mknod` with
`mode | S_IFREG`; the `excl` flag is received but never read. -/
def tagfs_create (allocOk : Bool) (ino now : Nat) (ctx : Ctx) (d : Dir)
    (name : String) (mode : Nat) (excl : Bool) : MkResult :=
  tagfs_mknod allocOk ino now ctx d name (mode ||| S_IFREG) 0

/-- Modelled from the spec: the VFS lookup layer (not in src/) performs the
atomic check-then-insert — a create against a name already present in the
parent fails `NameExists` (-EEXIST) with no side effect, before the
filesystem's own create is invoked on a negative dentry. -/
def vfs_create (allocOk : Bool) (ino now : Nat) (ctx : Ctx) (d : Dir)
    (name : String) (mode : Nat) (excl : Bool) : MkResult :=
  if (lookupName d name).isSome then { err := -EEXIST, dir := d, node := none }
  else tagfs_create allocOk ino now ctx d name mode excl

/-- Allocation-ledger events: a node is allocated, released (`iput`), or
bound to a dentry (`d_instantiate`). -/
inductive AllocEv
  | alloc (ino : Nat)
  | release (ino : Nat)
  | bind (ino : Nat)
  deriving DecidableEq, Repr

/-- Outcome of `tagfs_symlink`: error, parent directory afterwards, node
handed back, and the allocation-ledger trace of the call. -/
structure SymResult where
  err : Int
  dir : Dir
  node : Option Inode
  events : List AllocEv
  deriving DecidableEq, Repr

/-- Embedding of `tagfs_symlink` (source lines 125-143): allocate a
`S_IFLNK|S_IRWXUGO` inode; `storeErr` is what `page_symlink` (the external
blob collaborator) returns, 0 on success.  On store success the dentry is
instantiated and the parent times touched; on store failure the inode is
released with `iput` before the error is returned. -/
def tagfs_symlink (allocOk : Bool) (storeErr : Int) (ino now : Nat)
    (ctx : Ctx) (d : Dir) (name target : String) : SymResult :=
  match tagfs_get_inode allocOk ino now ctx (S_IFLNK ||| S_IRWXUGO) 0 with
  | some inode =>
      if storeErr = 0 then
        { err := 0,
          dir := { d_instantiate d name inode with
                   inode := { d.inode with mtime := now, ctime := now } },
          node := some inode,
          events := [.alloc inode.ino, .bind inode.ino] }
      else
        { err := storeErr, dir := d, node := none,
          events := [.alloc inode.ino, .release inode.ino] }
  | none => { err := -ENOSPC, dir := d, node := none, events := [] }

def removeEntry (d : Dir) (name : String) : Dir :=
  { d with entries := d.entries.filter (fun e => e.1 != name) }

/-- Modelled from the spec: `simple_rmdir` (generic libfs collaborator, not
in src/) — fails `NotEmpty` unless the target directory is empty; on
success removes the entry and decrements the parent's link count (and
touches the parent's times via `simple_unlink`).  `childEmpty` is the
collaborator's emptiness check of the child directory. -/
def simple_rmdir (childEmpty : Bool) (now : Nat) (d : Dir) (name : String) :
    Int × Dir :=
  match lookupName d name with
  | none => (-ENOENT, d)
  | some _ =>
      if childEmpty then
        (0, { removeEntry d name with
              inode := { drop_nlink d.inode with mtime := now, ctime := now } })
      else (-ENOTEMPTY, d)

/-! Mount configuration (`struct tagfs_mount_opts` / `struct tagfs_fs_info`). -/

structure TagfsMountOpts where
  mode : Nat
  deriving DecidableEq, Repr

/-- The per-volume record `struct tagfs_fs_info`, restricted to the fields
the source file reads or writes: the mount options, and whether a backing
block device / DAX device is attached (`bdevp`, `dax_devp` non-null). -/
structure TagfsFsInfo where
  mount_opts : TagfsMountOpts
  bdevp : Bool
  dax_devp : Bool
  deriving DecidableEq, Repr

/-- The mount context (`struct fs_context`), restricted to the fields the
source file touches: the per-volume record and the generic source string. -/
structure FsContext where
  s_fs_info : TagfsFsInfo
  source : Option String
  deriving DecidableEq, Repr

/-- One mount parameter: a key and its value string. -/
structure FsParameter where
  key : String
  value : String
  deriving DecidableEq, Repr

def octDigit (c : Char) : Option Nat :=
  if 48 ≤ c.toNat ∧ c.toNat ≤ 55 then some (c.toNat - 48) else none

def parseOctalCore : List Char → Nat → Option Nat
  | [], acc => some acc
  | c :: cs, acc =>
      match octDigit c with
      | some d => parseOctalCore cs (acc * 8 + d)
      | none => none

/-- Modelled from the spec: the octal-u32 value conversion the generic
option layer applies to a `fsparam_u32oct` parameter — all digits octal,
value within 32 bits, otherwise rejected. -/
def parseOctalU32 (s : String) : Option Nat :=
  if s.isEmpty then none
  else
    match parseOctalCore s.toList 0 with
    | some v => if v < 2 ^ 32 then some v else none
    | none => none

/-- Outcome of the generic table lookup: the matched option with its parsed
value, or an error code. -/
inductive FsParseOut
  | optMode (v : Nat)
  | err (e : Int)
  deriving DecidableEq, Repr

/-- Modelled from the spec: generic `fs_parse` (not in src/) applied to
this core's parameter table `tagfs_fs_parameters` (source lines 192-195),
which holds the single octal-u32 key "mode": a match yields `Opt_mode`
with the converted value, a bad value yields -EINVAL, an unknown key
yields -ENOPARAM. -/
def fs_parse (p : FsParameter) : FsParseOut :=
  if p.key = "mode" then
    match parseOctalU32 p.value with
    | some v => .optMode v
    | none => .err (-EINVAL)
  else .err (-ENOPARAM)

/-- Modelled from the spec: `vfs_parse_fs_param_source` (generic VFS, not
in src/) — consumes the key "source" (recording the value on the context,
error if a source is already recorded) and declines every other key with
-ENOPARAM. -/
def vfs_parse_fs_param_source (fc : FsContext) (p : FsParameter) :
    Int × FsContext :=
  if p.key = "source" then
    match fc.source with
    | some _ => (-EINVAL, fc)
    | none => (0, { fc with source := some p.value })
  else (-ENOPARAM, fc)

/-- Embedding of `tagfs_parse_param` (source lines 197-226): consult
`fs_parse`; on -ENOPARAM fall through to the generic source handler and,
if that also declines, accept-and-ignore (return 0); on any other error
return it; on `Opt_mode` store `result.uint_32 & S_IALLUGO` into the
record's mode field. -/
def tagfs_parse_param (fc : FsContext) (p : FsParameter) : Int × FsContext :=
  match fs_parse p with
  | .err e =>
      if e = -ENOPARAM then
        let r := vfs_parse_fs_param_source fc p
        if r.1 ≠ -ENOPARAM then r
        else (0, fc)
      else (e, fc)
  | .optMode v =>
      (0, { fc with s_fs_info :=
              { fc.s_fs_info with mount_opts := { mode := v &&& S_IALLUGO } } })

/-- Modelled from the spec: octal rendering done by `seq_printf`'s `%o`. -/
def toOctString (n : Nat) : String := String.mk (Nat.toDigits 8 n)

/-- Embedding of `tagfs_show_options` (source lines 173-180), as the list
of emitted option fragments: one `,mode=` fragment when the stored mode
differs from `TAGFS_DEFAULT_MODE`, nothing otherwise. -/
def tagfs_show_options (fsi : TagfsFsInfo) : List String :=
  if fsi.mount_opts.mode ≠ TAGFS_DEFAULT_MODE then
    [",mode=" ++ toOctString fsi.mount_opts.mode]
  else []

/-- Embedding of `tagfs_init_fs_context` (source lines 264-277), successful
path: the record comes zeroed from `kzalloc` (no block device, no DAX
device attached) and the mode is set to `TAGFS_DEFAULT_MODE`. -/
def tagfs_init_fs_context : FsContext :=
  { s_fs_info :=
      { mount_opts := { mode := TAGFS_DEFAULT_MODE },
        bdevp := false, dax_devp := false },
    source := none }

/-- Modelled from the spec: `d_make_root` (generic VFS, not in src/) —
wraps the root inode into the root entry; yields nothing when the inode is
absent or when the entry allocation itself fails (`rootOk = false`), in
which case the inode is released. -/
def d_make_root (rootOk : Bool) (inode : Option Inode) : Option Inode :=
  match inode with
  | none => none
  | some i => if rootOk then some i else none

/-- Embedding of `tagfs_fill_super` (source lines 228-246): allocate the
root inode with mode `S_IFDIR | fsi->mount_opts.mode`, make it the root;
return -ENOMEM when no root entry results, else 0 with the root. -/
def tagfs_fill_super (allocOk rootOk : Bool) (ino now : Nat) (ctx : Ctx)
    (fsi : TagfsFsInfo) : Int × Option Inode :=
  let inode := tagfs_get_inode allocOk ino now ctx
      (S_IFDIR ||| fsi.mount_opts.mode) 0
  match d_make_root rootOk inode with
  | none => (-ENOMEM, none)
  | some root => (0, some root)

/-! Volume teardown, as the trace of release events it performs. -/

inductive TearEv
  | destroyMutex
  | putBlkdev
  | putDax
  | freeFsInfo
  | killLitter
  deriving DecidableEq, Repr

/-- Embedding of `tagfs_kill_sb` (source lines 279-290), as its event
trace: destroy the mutex, put the block device if attached, put the DAX
device if attached, free the per-volume record, kill the tree. -/
def tagfs_kill_sb (fsi : TagfsFsInfo) : List TearEv :=
  [.destroyMutex]
    ++ (if fsi.bdevp then [.putBlkdev] else [])
    ++ (if fsi.dax_devp then [.putDax] else [])
    ++ [.freeFsInfo, .killLitter]

/-- Embedding of `tagfs_free_fc` (source lines 253-256), as its event
trace: `kfree(fc->s_fs_info)` frees the record exactly when the context
still holds one (`kfree(NULL)` is a no-op). -/
def tagfs_free_fc (info : Option TagfsFsInfo) : List TearEv :=
  match info with
  | some _ => [.freeFsInfo]
  | none => []

/-- Modelled from the spec: after a successful mount the host transfers the
per-volume record from the mount context to the volume, so the context
teardown (`tagfs_free_fc`) runs on an emptied context and the volume
teardown (`tagfs_kill_sb`) owns the record.  The whole teardown trace of a
mounted volume is the concatenation of the two. -/
def volume_teardown (fsi : TagfsFsInfo) : List TearEv :=
  tagfs_free_fc none ++ tagfs_kill_sb fsi

/-- Events that occur strictly before the record is freed in a trace. -/
def beforeFree (tr : List TearEv) : List TearEv :=
  tr.takeWhile (fun e => e != TearEv.freeFsInfo)

/-- Closed form of the node `tagfs_get_inode` builds when the host
allocation succeeds (used only to state equation lemmas about the
embedding; it is definitionally equal to the body of `tagfs_get_inode`). -/
def freshInode (ino now : Nat) (ctx : Ctx) (mode dev : Nat) : Inode :=
  if mode &&& S_IFMT = S_IFREG then
    ⟨ino, mode, ctx.uid, ctx.gid, 1, now, now, now, 0, .file⟩
  else if mode &&& S_IFMT = S_IFDIR then
    ⟨ino, mode, ctx.uid, ctx.gid, 2, now, now, now, 0, .dir⟩
  else if mode &&& S_IFMT = S_IFLNK then
    ⟨ino, mode, ctx.uid, ctx.gid, 1, now, now, now, 0, .symlinkPage⟩
  else
    ⟨ino, mode, ctx.uid, ctx.gid, 1, now, now, now, dev, .special⟩

/-! Helper lemmas shared by the claim theorems. -/

/-- Bits of `m` that are disjoint from `c` do not influence masking by `c`
after an or with `t`. -/
lemma lor_land_of_land_zero (m t c : Nat) (h : m &&& c = 0) :
    (m ||| t) &&& c = t &&& c := by
  apply Nat.eq_of_testBit_eq
  intro i
  have hm : (m &&& c).testBit i = false := by rw [h]; exact Nat.zero_testBit i
  rw [Nat.testBit_and] at hm
  rw [Nat.testBit_and, Nat.testBit_or, Nat.testBit_and]
  cases hmi : m.testBit i <;> cases hci : c.testBit i <;> simp_all

/-- A permission-only mode ored with `S_IFDIR` has file type `S_IFDIR`. -/
lemma mode_lor_dir_type (mode : Nat) (hm : mode &&& S_IFMT = 0) :
    (mode ||| S_IFDIR) &&& S_IFMT = S_IFDIR :=
  (lor_land_of_land_zero mode S_IFDIR S_IFMT hm).trans (by decide)

/-- A permission-only mode ored with `S_IFREG` has file type `S_IFREG`. -/
lemma mode_lor_reg_type (mode : Nat) (hm : mode &&& S_IFMT = 0) :
    (mode ||| S_IFREG) &&& S_IFMT = S_IFREG :=
  (lor_land_of_land_zero mode S_IFREG S_IFMT hm).trans (by decide)

/-- Closed form of `tagfs_get_inode` when the host allocation succeeds. -/
lemma tagfs_get_inode_true_eq (ino now : Nat) (ctx : Ctx) (mode dev : Nat) :
    tagfs_get_inode true ino now ctx mode dev =
      some (freshInode ino now ctx mode dev) := rfl

/-- Closed form of `tagfs_mknod` when the host allocation succeeds. -/
lemma tagfs_mknod_true_eq (ino now : Nat) (ctx : Ctx) (d : Dir)
    (name : String) (mode dev : Nat) :
    tagfs_mknod true ino now ctx d name mode dev =
      { err := 0,
        dir := ⟨{ d.inode with mtime := now, ctime := now },
                d.entries ++ [(name, freshInode ino now ctx mode dev)]⟩,
        node := some (freshInode ino now ctx mode dev) } := rfl

/-- Selecting the RegularFile arm of `freshInode`. -/
lemma freshInode_reg (ino now : Nat) (ctx : Ctx) (mode dev : Nat)
    (hm : mode &&& S_IFMT = S_IFREG) :
    freshInode ino now ctx mode dev =
      ⟨ino, mode, ctx.uid, ctx.gid, 1, now, now, now, 0, .file⟩ := by
  simp only [freshInode]
  rw [if_pos hm]

/-- Selecting the Directory arm of `freshInode`. -/
lemma freshInode_dir (ino now : Nat) (ctx : Ctx) (mode dev : Nat)
    (hm : mode &&& S_IFMT = S_IFDIR) :
    freshInode ino now ctx mode dev =
      ⟨ino, mode, ctx.uid, ctx.gid, 2, now, now, now, 0, .dir⟩ := by
  have h1 : ¬(mode &&& S_IFMT = S_IFREG) := by rw [hm]; decide
  simp only [freshInode]
  rw [if_neg h1, if_pos hm]

/-- A list extended at the end with the sought name always has a match. -/
lemma find_append_singleton (l : List (String × Inode)) (name : String)
    (x : Inode) :
    (List.find? (fun e => e.1 == name) (l ++ [(name, x)])).isSome = true := by
  induction l with
  | nil => simp [List.find?]
  | cons a t ih =>
      cases hb : (a.1 == name) with
      | true => simp [List.find?, hb]
      | false => simp [List.find?, hb, ih]

/-- Closed form of `tagfs_symlink` when the host allocation succeeds: the
store outcome selects between instantiation and release. -/
lemma tagfs_symlink_true_eq (storeErr : Int) (ino now : Nat) (ctx : Ctx)
    (d : Dir) (name target : String) :
    tagfs_symlink true storeErr ino now ctx d name target =
      if storeErr = 0 then
        { err := 0,
          dir := ⟨{ d.inode with mtime := now, ctime := now },
                  d.entries ++
                    [(name, freshInode ino now ctx (S_IFLNK ||| S_IRWXUGO) 0)]⟩,
          node := some (freshInode ino now ctx (S_IFLNK ||| S_IRWXUGO) 0),
          events := [.alloc ino, .bind ino] }
      else
        { err := storeErr, dir := d, node := none,
          events := [.alloc ino, .release ino] } := rfl

/-! Claim theorems. -/

/-- C1: for every symlink creation, if the node allocation succeeded but
the target store failed, the allocated node is released before the error
returns — every allocation in the call's ledger has a matching release,
the parent directory is unchanged and no node is handed back; if the store
succeeds, the entry is instantiated in the parent and the new node is
returned. -/
theorem symlink_releases_on_store_failure (allocOk : Bool) (storeErr : Int)
    (ino now : Nat) (ctx : Ctx) (d : Dir) (name target : String) :
    ((tagfs_symlink allocOk storeErr ino now ctx d name target).err ≠ 0 →
      (∀ i, AllocEv.alloc i ∈
          (tagfs_symlink allocOk storeErr ino now ctx d name target).events →
        AllocEv.release i ∈
          (tagfs_symlink allocOk storeErr ino now ctx d name target).events) ∧
      (tagfs_symlink allocOk storeErr ino now ctx d name target).dir = d ∧
      (tagfs_symlink allocOk storeErr ino now ctx d name target).node = none) ∧
    (allocOk = true → storeErr = 0 →
      ∃ nd, (tagfs_symlink allocOk storeErr ino now ctx d name target).err = 0 ∧
        (tagfs_symlink allocOk storeErr ino now ctx d name target).node = some nd ∧
        (name, nd) ∈
          (tagfs_symlink allocOk storeErr ino now ctx d name target).dir.entries ∧
        AllocEv.bind nd.ino ∈
          (tagfs_symlink allocOk storeErr ino now ctx d name target).events) := by
  cases allocOk with
  | false =>
      have he : tagfs_symlink false storeErr ino now ctx d name target =
          { err := -ENOSPC, dir := d, node := none, events := [] } := rfl
      rw [he]
      refine ⟨fun _ => ⟨fun i hi => ?_, rfl, rfl⟩, fun h => absurd h (by decide)⟩
      simp at hi
  | true =>
      rw [tagfs_symlink_true_eq]
      by_cases hs : storeErr = 0
      · rw [if_pos hs]
        refine ⟨fun h => absurd rfl h, fun _ _ =>
          ⟨freshInode ino now ctx (S_IFLNK ||| S_IRWXUGO) 0, rfl, rfl, ?_, ?_⟩⟩
        · simp
        · have hio : (freshInode ino now ctx (S_IFLNK ||| S_IRWXUGO) 0).ino = ino := rfl
          rw [hio]
          simp
      · rw [if_neg hs]
        refine ⟨fun _ => ⟨fun i hi => ?_, rfl, rfl⟩, fun _ h0 => absurd h0 hs⟩
        simp only [List.mem_cons, List.not_mem_nil, or_false] at hi
        rcases hi with hi | hi
        · cases hi
          simp
        · cases hi

/-- Witness for C1: with allocation succeeding and the store failing with
-5, the allocated node (ino 3) is released, the directory is unchanged and
no node is returned; with the store succeeding the operation reports
success. -/
theorem symlink_releases_on_store_failure_witness :
    AllocEv.release 3 ∈ (tagfs_symlink true (-5) 3 9 ⟨1, 2⟩
      ⟨⟨1, 0o40755, 0, 0, 2, 0, 0, 0, 0, .dir⟩, []⟩ "l" "t").events ∧
    (tagfs_symlink true (-5) 3 9 ⟨1, 2⟩
      ⟨⟨1, 0o40755, 0, 0, 2, 0, 0, 0, 0, .dir⟩, []⟩ "l" "t").dir =
      ⟨⟨1, 0o40755, 0, 0, 2, 0, 0, 0, 0, .dir⟩, []⟩ ∧
    (tagfs_symlink true (-5) 3 9 ⟨1, 2⟩
      ⟨⟨1, 0o40755, 0, 0, 2, 0, 0, 0, 0, .dir⟩, []⟩ "l" "t").node = none ∧
    (tagfs_symlink true 0 3 9 ⟨1, 2⟩
      ⟨⟨1, 0o40755, 0, 0, 2, 0, 0, 0, 0, .dir⟩, []⟩ "l" "t").err = 0 := by
  have h1 := (symlink_releases_on_store_failure true (-5) 3 9 ⟨1, 2⟩
    ⟨⟨1, 0o40755, 0, 0, 2, 0, 0, 0, 0, .dir⟩, []⟩ "l" "t").1 (by decide)
  have h2 := (symlink_releases_on_store_failure true 0 3 9 ⟨1, 2⟩
    ⟨⟨1, 0o40755, 0, 0, 2, 0, 0, 0, 0, .dir⟩, []⟩ "l" "t").2 rfl rfl
  obtain ⟨nd, he, _⟩ := h2
  exact ⟨h1.1 3 (by decide), h1.2.1, h1.2.2, he⟩

/-- C10: the outcome of `tagfs_create` is identical whether or not the
exclusive-creation flag is set — the flag is received and never read, so it
has no influence on the result or on any state change, including through
the VFS check-then-insert wrapper. -/
theorem create_ignores_excl_flag (allocOk : Bool) (ino now : Nat) (ctx : Ctx)
    (d : Dir) (name : String) (mode : Nat) (e1 e2 : Bool) :
    tagfs_create allocOk ino now ctx d name mode e1 =
      tagfs_create allocOk ino now ctx d name mode e2 ∧
    vfs_create allocOk ino now ctx d name mode e1 =
      vfs_create allocOk ino now ctx d name mode e2 :=
  ⟨rfl, rfl⟩

/-- C2: a successful `tagfs_get_inode` yields link count 2 for a Directory
mode and link count 1 for a RegularFile or SymbolicLink mode, and sets the
access, modify and change timestamps to the current time. -/
theorem get_inode_link_counts_and_times (ino now : Nat) (ctx : Ctx)
    (mode dev : Nat) :
    ∃ node, tagfs_get_inode true ino now ctx mode dev = some node ∧
      (mode &&& S_IFMT = S_IFDIR → node.nlink = 2) ∧
      (mode &&& S_IFMT = S_IFREG → node.nlink = 1) ∧
      (mode &&& S_IFMT = S_IFLNK → node.nlink = 1) ∧
      node.atime = now ∧ node.mtime = now ∧ node.ctime = now := by
  rw [tagfs_get_inode_true_eq]
  refine ⟨_, rfl, ?_, ?_, ?_, ?_, ?_, ?_⟩
  · intro h
    rw [freshInode_dir _ _ _ _ _ h]
  · intro h
    rw [freshInode_reg _ _ _ _ _ h]
  · intro h
    have h1 : ¬(mode &&& S_IFMT = S_IFREG) := by rw [h]; decide
    have h2 : ¬(mode &&& S_IFMT = S_IFDIR) := by rw [h]; decide
    simp only [freshInode]
    rw [if_neg h1, if_neg h2, if_pos h]
  · simp only [freshInode]
    split_ifs <;> rfl
  · simp only [freshInode]
    split_ifs <;> rfl
  · simp only [freshInode]
    split_ifs <;> rfl

/-- Witness for C2 at a concrete directory mode and a concrete time. -/
theorem get_inode_link_counts_and_times_witness :
    ∃ node, tagfs_get_inode true 7 5 ⟨10, 20⟩ (S_IFDIR ||| 0o755) 0 = some node ∧
      node.nlink = 2 ∧ node.atime = 5 ∧ node.mtime = 5 ∧ node.ctime = 5 := by
  obtain ⟨node, he, hdir, _, _, ha, hmt, hc⟩ :=
    get_inode_link_counts_and_times 7 5 ⟨10, 20⟩ (S_IFDIR ||| 0o755) 0
  exact ⟨node, he, hdir (by decide), ha, hmt, hc⟩

/-- C3: a successful mkdir increments the parent's link count by exactly
one; a mkdir whose node allocation fails leaves the parent (record and
link count) unchanged; and a mkdir followed immediately by an rmdir of the
same (freshly created, hence empty) name restores the parent's link count
to its pre-mkdir value. -/
theorem mkdir_increments_parent_rmdir_restores (ino now now2 : Nat)
    (ctx : Ctx) (d : Dir) (name : String) (mode : Nat)
    (hm : mode &&& S_IFMT = 0) :
    ((tagfs_mkdir true ino now ctx d name mode).err = 0 ∧
     (tagfs_mkdir true ino now ctx d name mode).dir.inode.nlink =
       d.inode.nlink + 1) ∧
    tagfs_mkdir false ino now ctx d name mode =
      { err := -ENOSPC, dir := d, node := none } ∧
    (simple_rmdir true now2 (tagfs_mkdir true ino now ctx d name mode).dir
        name).2.inode.nlink = d.inode.nlink := by
  have hmk : tagfs_mkdir true ino now ctx d name mode =
      { err := 0,
        dir := ⟨inc_nlink { d.inode with mtime := now, ctime := now },
                d.entries ++
                  [(name, freshInode ino now ctx (mode ||| S_IFDIR) 0)]⟩,
        node := some (freshInode ino now ctx (mode ||| S_IFDIR) 0) } := rfl
  refine ⟨⟨by rw [hmk], by rw [hmk]; simp [inc_nlink]⟩, rfl, ?_⟩
  rw [hmk]
  obtain ⟨y, hy⟩ := Option.isSome_iff_exists.mp
    (find_append_singleton d.entries name
      (freshInode ino now ctx (mode ||| S_IFDIR) 0))
  have hlook : lookupName
      ⟨inc_nlink { d.inode with mtime := now, ctime := now },
       d.entries ++ [(name, freshInode ino now ctx (mode ||| S_IFDIR) 0)]⟩
      name = some y.2 := by
    simp [lookupName, hy]
  simp only [simple_rmdir, hlook]
  simp [drop_nlink, inc_nlink]

/-- Witness for C3 at a concrete parent with link count 2: mkdir raises it
to 3, the failing mkdir leaves it at 2, and mkdir-then-rmdir returns it
to 2. -/
theorem mkdir_increments_parent_rmdir_restores_witness :
    ((tagfs_mkdir true 4 9 ⟨1, 2⟩
        ⟨⟨1, 0o40755, 0, 0, 2, 0, 0, 0, 0, .dir⟩, []⟩ "sub" 0o750).err = 0 ∧
     (tagfs_mkdir true 4 9 ⟨1, 2⟩
        ⟨⟨1, 0o40755, 0, 0, 2, 0, 0, 0, 0, .dir⟩, []⟩ "sub" 0o750).dir.inode.nlink = 3) ∧
    tagfs_mkdir false 4 9 ⟨1, 2⟩
        ⟨⟨1, 0o40755, 0, 0, 2, 0, 0, 0, 0, .dir⟩, []⟩ "sub" 0o750 =
      { err := -ENOSPC,
        dir := ⟨⟨1, 0o40755, 0, 0, 2, 0, 0, 0, 0, .dir⟩, []⟩, node := none } ∧
    (simple_rmdir true 11 (tagfs_mkdir true 4 9 ⟨1, 2⟩
        ⟨⟨1, 0o40755, 0, 0, 2, 0, 0, 0, 0, .dir⟩, []⟩ "sub" 0o750).dir
        "sub").2.inode.nlink = 2 :=
  mkdir_increments_parent_rmdir_restores 4 9 11 ⟨1, 2⟩
    ⟨⟨1, 0o40755, 0, 0, 2, 0, 0, 0, 0, .dir⟩, []⟩ "sub" 0o750 (by decide)

/-- C4: a regular-file create through the VFS check-then-insert against a
name already present in the parent fails with `NameExists` (-EEXIST) and
has no side effect; against an absent name (with allocation succeeding) it
allocates a RegularFile node and inserts the entry. -/
theorem create_name_exists_atomic (allocOk : Bool) (ino now : Nat)
    (ctx : Ctx) (d : Dir) (name : String) (mode : Nat) (excl : Bool)
    (hm : mode &&& S_IFMT = 0) :
    ((lookupName d name).isSome = true →
      vfs_create allocOk ino now ctx d name mode excl =
        { err := -EEXIST, dir := d, node := none }) ∧
    ((lookupName d name).isSome = false →
      ∃ nd, vfs_create true ino now ctx d name mode excl =
          { err := 0,
            dir := ⟨{ d.inode with mtime := now, ctime := now },
                    d.entries ++ [(name, nd)]⟩,
            node := some nd } ∧
        nd.mode &&& S_IFMT = S_IFREG) := by
  constructor
  · intro h
    simp [vfs_create, h]
  · intro h
    have hreg := mode_lor_reg_type mode hm
    refine ⟨freshInode ino now ctx (mode ||| S_IFREG) 0, ?_, ?_⟩
    · simp only [vfs_create, h, Bool.false_eq_true, if_false]
      exact tagfs_mknod_true_eq ino now ctx d name (mode ||| S_IFREG) 0
    · rw [freshInode_reg _ _ _ _ _ hreg]
      exact hreg

/-- Witness for C4: creating "f" in a parent already holding "f" fails
with -EEXIST and changes nothing; creating "g" there succeeds and inserts
the entry. -/
theorem create_name_exists_atomic_witness :
    vfs_create true 4 9 ⟨1, 2⟩
        ⟨⟨1, 0o40755, 0, 0, 2, 0, 0, 0, 0, .dir⟩,
         [("f", ⟨2, 0o100644, 0, 0, 1, 0, 0, 0, 0, .file⟩)]⟩ "f" 0o644 false =
      { err := -EEXIST,
        dir := ⟨⟨1, 0o40755, 0, 0, 2, 0, 0, 0, 0, .dir⟩,
                [("f", ⟨2, 0o100644, 0, 0, 1, 0, 0, 0, 0, .file⟩)]⟩,
        node := none } ∧
    (vfs_create true 4 9 ⟨1, 2⟩
        ⟨⟨1, 0o40755, 0, 0, 2, 0, 0, 0, 0, .dir⟩,
         [("f", ⟨2, 0o100644, 0, 0, 1, 0, 0, 0, 0, .file⟩)]⟩ "g" 0o644 false).err = 0 := by
  have h1 := (create_name_exists_atomic true 4 9 ⟨1, 2⟩
    ⟨⟨1, 0o40755, 0, 0, 2, 0, 0, 0, 0, .dir⟩,
     [("f", ⟨2, 0o100644, 0, 0, 1, 0, 0, 0, 0, .file⟩)]⟩ "f" 0o644 false
    (by decide)).1 (by decide)
  have h2 := (create_name_exists_atomic true 4 9 ⟨1, 2⟩
    ⟨⟨1, 0o40755, 0, 0, 2, 0, 0, 0, 0, .dir⟩,
     [("f", ⟨2, 0o100644, 0, 0, 1, 0, 0, 0, 0, .file⟩)]⟩ "g" 0o644 false
    (by decide)).2 (by decide)
  obtain ⟨nd, he, _⟩ := h2
  exact ⟨h1, by rw [he]⟩

/-- C5: mounting creates the root as a Directory node whose permission
bits come from the configuration's default mode; when root allocation
fails (either the inode or the root entry), the mount fails with
OutOfResources (-ENOMEM); otherwise the volume's root is returned. -/
theorem fill_super_root_from_config (allocOk rootOk : Bool) (ino now : Nat)
    (ctx : Ctx) (fsi : TagfsFsInfo)
    (hm : fsi.mount_opts.mode &&& S_IFMT = 0) :
    (allocOk = false ∨ rootOk = false →
      tagfs_fill_super allocOk rootOk ino now ctx fsi = (-ENOMEM, none)) ∧
    (allocOk = true → rootOk = true →
      ∃ root, tagfs_fill_super allocOk rootOk ino now ctx fsi = (0, some root) ∧
        root.mode = S_IFDIR ||| fsi.mount_opts.mode ∧
        root.mode &&& S_IFMT = S_IFDIR ∧
        root.nlink = 2 ∧
        root.mode &&& S_IALLUGO = fsi.mount_opts.mode &&& S_IALLUGO) := by
  have hdir : (S_IFDIR ||| fsi.mount_opts.mode) &&& S_IFMT = S_IFDIR := by
    rw [Nat.lor_comm]
    exact mode_lor_dir_type _ hm
  constructor
  · intro h
    cases allocOk with
    | false => rfl
    | true =>
        cases rootOk with
        | false => rfl
        | true => rcases h with h | h <;> exact absurd h (by decide)
  · intro ha hr
    subst ha
    subst hr
    refine ⟨freshInode ino now ctx (S_IFDIR ||| fsi.mount_opts.mode) 0,
      rfl, ?_, ?_, ?_, ?_⟩
    · rw [freshInode_dir _ _ _ _ _ hdir]
    · rw [freshInode_dir _ _ _ _ _ hdir]
      exact hdir
    · rw [freshInode_dir _ _ _ _ _ hdir]
    · rw [freshInode_dir _ _ _ _ _ hdir]
      exact lor_land_of_land_zero S_IFDIR fsi.mount_opts.mode S_IALLUGO
        (by decide)

/-- Witness for C5 with configuration mode 0o750: failed allocation mounts
with -ENOMEM; successful allocation yields a directory root with
permission bits 0o750. -/
theorem fill_super_root_from_config_witness :
    tagfs_fill_super false true 1 0 ⟨0, 0⟩ ⟨⟨0o750⟩, false, false⟩ =
      (-ENOMEM, none) ∧
    (tagfs_fill_super true true 1 0 ⟨0, 0⟩ ⟨⟨0o750⟩, false, false⟩).1 = 0 := by
  have h1 := (fill_super_root_from_config false true 1 0 ⟨0, 0⟩
    ⟨⟨0o750⟩, false, false⟩ (by decide)).1 (Or.inl rfl)
  have h2 := (fill_super_root_from_config true true 1 0 ⟨0, 0⟩
    ⟨⟨0o750⟩, false, false⟩ (by decide)).2 rfl rfl
  obtain ⟨root, he, _⟩ := h2
  exact ⟨h1, by rw [he]⟩

/-- C6: for every mount parameter whose key is not the core's recognized
"mode" key, parsing never touches the Mount Configuration record; and for
every such key other than the generic source key (which
`tagfs_parse_param` explicitly delegates to the VFS pass-through), parsing
returns success with the whole mount context unchanged — an unrecognized
key is accepted and ignored, never rejected. -/
theorem parse_param_unknown_key_ignored (fc : FsContext) (p : FsParameter)
    (hm : p.key ≠ "mode") :
    (tagfs_parse_param fc p).2.s_fs_info = fc.s_fs_info ∧
    (p.key ≠ "source" → tagfs_parse_param fc p = (0, fc)) := by
  by_cases hs : p.key = "source"
  · refine ⟨?_, fun hs2 => absurd hs hs2⟩
    cases hsrc : fc.source <;>
      simp [tagfs_parse_param, fs_parse, vfs_parse_fs_param_source, hm, hs,
        hsrc, ENOPARAM, EINVAL]
  · have he : tagfs_parse_param fc p = (0, fc) := by
      simp [tagfs_parse_param, fs_parse, vfs_parse_fs_param_source, hm, hs]
    exact ⟨by rw [he], fun _ => he⟩

/-- Witness for C6 at a concrete unrecognized key. -/
theorem parse_param_unknown_key_ignored_witness :
    (tagfs_parse_param ⟨⟨⟨0o700⟩, true, false⟩, none⟩ ⟨"huge", "always"⟩).2.s_fs_info =
      ⟨⟨0o700⟩, true, false⟩ ∧
    tagfs_parse_param ⟨⟨⟨0o700⟩, true, false⟩, none⟩ ⟨"huge", "always"⟩ =
      (0, ⟨⟨⟨0o700⟩, true, false⟩, none⟩) := by
  have h := parse_param_unknown_key_ignored ⟨⟨⟨0o700⟩, true, false⟩, none⟩
    ⟨"huge", "always"⟩ (by decide)
  exact ⟨h.1, h.2 (by decide)⟩

/-- C7: for every recognized creation-mode option whose value converts to
the integer v, parsing stores exactly `v &&& S_IALLUGO` into the record's
mode field and changes nothing else in the mount context. -/
theorem parse_param_mode_masked (fc : FsContext) (p : FsParameter) (v : Nat)
    (hk : p.key = "mode") (hv : parseOctalU32 p.value = some v) :
    tagfs_parse_param fc p =
      (0, { fc with s_fs_info :=
              { fc.s_fs_info with
                mount_opts := { mode := v &&& S_IALLUGO } } }) := by
  simp [tagfs_parse_param, fs_parse, hk, hv]

/-- Witness for C7: mode=1777 (octal) is stored as 0o1777, all other
fields kept. -/
theorem parse_param_mode_masked_witness :
    tagfs_parse_param ⟨⟨⟨0o755⟩, false, true⟩, some "dev"⟩ ⟨"mode", "1777"⟩ =
      (0, ⟨⟨⟨0o1777⟩, false, true⟩, some "dev"⟩) := by
  have h := parse_param_mode_masked ⟨⟨⟨0o755⟩, false, true⟩, some "dev"⟩
    ⟨"mode", "1777"⟩ 0o1777 rfl (by decide)
  simpa [S_IALLUGO] using h

/-- C8: option redisplay emits the creation-mode option exactly when the
stored mode differs from the built-in default `TAGFS_DEFAULT_MODE = 0o755`;
for a freshly initialized (untouched) configuration it emits nothing. -/
theorem show_options_iff_nondefault :
    (∀ fsi : TagfsFsInfo,
      (tagfs_show_options fsi = [] ↔ fsi.mount_opts.mode = TAGFS_DEFAULT_MODE) ∧
      (fsi.mount_opts.mode ≠ TAGFS_DEFAULT_MODE →
        tagfs_show_options fsi = [",mode=" ++ toOctString fsi.mount_opts.mode])) ∧
    TAGFS_DEFAULT_MODE = 0o755 ∧
    tagfs_show_options tagfs_init_fs_context.s_fs_info = [] := by
  refine ⟨fun fsi => ⟨⟨?_, ?_⟩, ?_⟩, rfl, rfl⟩
  · intro h
    by_contra hne
    simp [tagfs_show_options, hne] at h
  · intro h
    simp [tagfs_show_options, h]
  · intro h
    simp [tagfs_show_options, h]

/-- Witness for C8: a 0o750 configuration emits the mode fragment, the
default 0o755 configuration emits nothing. -/
theorem show_options_iff_nondefault_witness :
    tagfs_show_options ⟨⟨0o750⟩, false, false⟩ = [",mode=" ++ toOctString 0o750] ∧
    tagfs_show_options ⟨⟨0o755⟩, false, false⟩ = [] := by
  have h := show_options_iff_nondefault
  exact ⟨(h.1 ⟨⟨0o750⟩, false, false⟩).2 (by decide),
         ((h.1 ⟨⟨0o755⟩, false, false⟩).1).2 rfl⟩

/-- C9: in the teardown trace of a mounted volume the configuration record
is freed exactly once, and every externally attached resource it references
(backing block device, DAX device) is put strictly before that free. -/
theorem teardown_releases_before_single_free (fsi : TagfsFsInfo) :
    (volume_teardown fsi).count TearEv.freeFsInfo = 1 ∧
    (fsi.bdevp = true → TearEv.putBlkdev ∈ beforeFree (volume_teardown fsi)) ∧
    (fsi.dax_devp = true → TearEv.putDax ∈ beforeFree (volume_teardown fsi)) := by
  obtain ⟨m, b, dx⟩ := fsi
  cases b <;> cases dx <;>
    simp [volume_teardown, tagfs_free_fc, tagfs_kill_sb, beforeFree,
      List.count_cons]

/-- Witness for C9 with both a block device and a DAX device attached. -/
theorem teardown_releases_before_single_free_witness :
    (volume_teardown ⟨⟨0o755⟩, true, true⟩).count TearEv.freeFsInfo = 1 ∧
    TearEv.putBlkdev ∈ beforeFree (volume_teardown ⟨⟨0o755⟩, true, true⟩) ∧
    TearEv.putDax ∈ beforeFree (volume_teardown ⟨⟨0o755⟩, true, true⟩) := by
  obtain ⟨h1, h2, h3⟩ := teardown_releases_before_single_free ⟨⟨0o755⟩, true, true⟩
  exact ⟨h1, h2 rfl, h3 rfl⟩

end Tagfs
